import Mathlib

/-!
Shallow embedding of the session and task-execution engine of a browser
automation tool: MFA code extraction and mailbox search, the download
manager, the report-flow orchestrator, the login/MFA state machine, and
the caregiver field-mapping resolution.  Each definition mirrors one
function of the JavaScript source; environments stand for the outcomes of
browser and network interactions, which the source observes but does not
compute.
-/

namespace Rx

/-- Character class `[0-9]` of the source's code-extraction patterns. -/
def isDigitCh (c : Char) : Bool := c.isDigit

/-- Whitespace class `\s` as used between the pattern literal and the code. -/
def isSpaceCh (c : Char) : Bool :=
  c = ' ' || c = '\t' || c = '\n' || c = '\r' || c = '\x0b' || c = '\x0c'

/-- Word-character class `\w` (letters, digits, underscore) for `\b` boundaries. -/
def isWordCh (c : Char) : Bool := c.isAlphanum || c = '_'

/-- Whether `needle` occurs at the head of the second list (case-sensitive). -/
def leadsWith : List Char → List Char → Bool
  | [], _ => true
  | _ :: _, [] => false
  | a :: as, b :: bs => a = b && leadsWith as bs

/-- Whether `needle` occurs anywhere in the list (case-sensitive), mirroring
JavaScript `String.prototype.includes`. -/
def containsChars (needle : List Char) : List Char → Bool
  | [] => leadsWith needle []
  | c :: rest => leadsWith needle (c :: rest) || containsChars needle rest

/-- `hay.includes(needle)` on strings. -/
def containsSub (hay needle : String) : Bool :=
  containsChars needle.toList hay.toList

/-- `hay.toLowerCase().includes(needle.toLowerCase())`. -/
def containsSubCI (hay needle : String) : Bool :=
  containsChars (needle.toList.map Char.toLower) (hay.toList.map Char.toLower)

/-- Case-insensitive literal match at the head of the input; returns the
rest of the input past the literal. -/
def matchLitCI : List Char → List Char → Option (List Char)
  | [], s => some s
  | _ :: _, [] => none
  | l :: ls, c :: cs => if l.toLower = c.toLower then matchLitCI ls cs else none

/-- The `:?` (optional) or `:` (mandatory) colon between the literal and the code. -/
def afterColon (optional : Bool) : List Char → Option (List Char)
  | ':' :: rs => some rs
  | rs => if optional then some rs else none

/-- Greedy `\s*`. -/
def skipSpacesCh (s : List Char) : List Char := s.dropWhile isSpaceCh

/-- `[0-9]{6}` at the head of the input: the six digits and the rest. -/
def takeSixDigits : List Char → Option (List Char × List Char)
  | c1 :: c2 :: c3 :: c4 :: c5 :: c6 :: rest =>
    if isDigitCh c1 && isDigitCh c2 && isDigitCh c3 && isDigitCh c4 &&
        isDigitCh c5 && isDigitCh c6 then
      some ([c1, c2, c3, c4, c5, c6], rest)
    else none
  | _ => none

/-- One pattern of shape `lit:?\s*([0-9]{6})` (colon optional or mandatory),
anchored at the current position. -/
def matchLitCodeAt (lit : List Char) (optColon : Bool) (s : List Char) :
    Option (List Char) :=
  match matchLitCI lit s with
  | none => none
  | some rest =>
    match afterColon optColon rest with
    | none => none
    | some rest2 =>
      match takeSixDigits (skipSpacesCh rest2) with
      | some (ds, _) => some ds
      | none => none

/-- The pattern `([0-9]{6})\s*lit`, anchored at the current position. -/
def matchCodeLitAt (lit : List Char) (s : List Char) : Option (List Char) :=
  match takeSixDigits s with
  | none => none
  | some (ds, rest) =>
    match matchLitCI lit (skipSpacesCh rest) with
    | some _ => some ds
    | none => none

/-- The fallback pattern `\b([0-9]{6})\b`, anchored at the current position;
`prev` is the character preceding the position (none at the start). -/
def matchBoundSixAt (prev : Option Char) (s : List Char) : Option (List Char) :=
  if (match prev with | none => true | some p => !isWordCh p) then
    match takeSixDigits s with
    | some (ds, rest) =>
      match rest with
      | [] => some ds
      | c :: _ => if !isWordCh c then some ds else none
    | none => none
  else none

/-- Scan the input left to right, returning the first position where the
anchored matcher succeeds, as `String.prototype.match` does. -/
def scanFor (m : List Char → Option (List Char)) : List Char → Option (List Char)
  | [] => m []
  | c :: rest =>
    match m (c :: rest) with
    | some r => some r
    | none => scanFor m rest

/-- Scan for the `\b([0-9]{6})\b` fallback, tracking the previous character. -/
def scanBound : Option Char → List Char → Option (List Char)
  | _, [] => none
  | prev, c :: rest =>
    match matchBoundSixAt prev (c :: rest) with
    | some r => some r
    | none => scanBound (some c) rest

/-- The ordered six-pattern cascade shared verbatim by `extractMFACode`
(mfa-email.js) and `extractMFACodeFromEmail` (mfa-email-imap.js), over the
character list of the body: most specific phrasing first, bare six-digit
run last; the first matching pattern wins. -/
def sixDigitScanChars (s : List Char) : Option String :=
  match scanFor (matchLitCodeAt ("verification code is".toList) true) s with
  | some ds => some (String.mk ds)
  | none =>
  match scanFor (matchLitCodeAt ("your code is".toList) true) s with
  | some ds => some (String.mk ds)
  | none =>
  match scanFor (matchLitCodeAt ("security code".toList) true) s with
  | some ds => some (String.mk ds)
  | none =>
  match scanFor (matchCodeLitAt ("is your verification code".toList)) s with
  | some ds => some (String.mk ds)
  | none =>
  match scanFor (matchLitCodeAt ("code".toList) false) s with
  | some ds => some (String.mk ds)
  | none =>
  match scanBound none s with
  | some ds => some (String.mk ds)
  | none => none

/-- The pattern cascade applied to a message body string. -/
def sixDigitScan (body : String) : Option String :=
  sixDigitScanChars body.toList

/-- Whether the list begins with six consecutive digits. -/
def startsSix : List Char → Bool
  | c1 :: c2 :: c3 :: c4 :: c5 :: c6 :: _ =>
    isDigitCh c1 && isDigitCh c2 && isDigitCh c3 && isDigitCh c4 &&
      isDigitCh c5 && isDigitCh c6
  | _ => false

/-- Whether the list contains a run of six consecutive digits anywhere. -/
def hasSixRun : List Char → Bool
  | [] => false
  | c :: rest => startsSix (c :: rest) || hasSixRun rest

end Rx

namespace MfaEmail

/-- `extractMFACode(emailBody)` of mfa-email.js: the ordered pattern cascade
over the message body. -/
def extractMFACode (emailBody : String) : Option String :=
  Rx.sixDigitScan emailBody

/-- One message as returned by the Microsoft Graph mail query: receipt time
in milliseconds since the epoch, sender address, subject, and body content. -/
structure GraphMessage where
  receivedDateTime : Nat
  sender : String
  subject : String
  body : String
  deriving DecidableEq

/-- The configured expected sender (`MFA_EMAIL_CONFIG.emailCriteria.sender`). -/
def expectedSender : String := "noreply@hhaexchange.com"

/-- The configured subject keywords joined into the `$search` clause. -/
def subjectKeywords : List String := ["verification", "code", "login", "mfa"]

/-- The configured recency window (`maxAge` of 300 seconds) in milliseconds. -/
def maxAgeMs : Nat := 300000

/-- The server-side `receivedDateTime ge (now - maxAge)` filter the request
asks Microsoft Graph to apply. -/
def recentOk (now : Nat) (m : GraphMessage) : Bool :=
  decide (now - maxAgeMs ≤ m.receivedDateTime)

/-- The server-side `$search` over the subject keywords. -/
def searchMatches (m : GraphMessage) : Bool :=
  subjectKeywords.any (fun k => Rx.containsSubCI m.subject k || Rx.containsSubCI m.body k)

/-- Insert into a list sorted by receipt time, newest first. -/
def insertDesc (m : GraphMessage) : List GraphMessage → List GraphMessage
  | [] => [m]
  | x :: xs =>
    if x.receivedDateTime ≤ m.receivedDateTime then m :: x :: xs
    else x :: insertDesc m xs

/-- `$orderby=receivedDateTime DESC`. -/
def sortDesc : List GraphMessage → List GraphMessage
  | [] => []
  | m :: ms => insertDesc m (sortDesc ms)

/-- The client-side loop of `searchOutlookForMFACode`: skip messages whose
sender does not contain the expected sender, return the first code extracted
from a remaining message's body.  No timestamp is inspected here. -/
def searchGo : List GraphMessage → Option String
  | [] => none
  | m :: ms =>
    if !Rx.containsSubCI m.sender expectedSender then searchGo ms
    else
      match extractMFACode m.body with
      | some code => some code
      | none => searchGo ms

/-- `searchOutlookForMFACode` of mfa-email.js: the inbox is filtered by the
requested server-side recency window and subject search, ordered newest
first, truncated to `$top=10`, then scanned client-side.  `now` is the time
the query is issued. -/
def searchOutlookForMFACode (now : Nat) (inbox : List GraphMessage) : Option String :=
  searchGo (((sortDesc (inbox.filter (fun m => recentOk now m && searchMatches m)))).take 10)

end MfaEmail

namespace ImapMfa

/-- One parsed IMAP message (`simpleParser` output): receipt time in
milliseconds, sender display text, subject, and optional text/html bodies. -/
structure ImapMessage where
  date : Nat
  sender : String
  subject : String
  text : Option String
  html : Option String
  deriving DecidableEq

/-- `text || html || ''` of `extractMFACodeFromEmail`: JavaScript string
truthiness, so an empty text body falls through to the html body. -/
def contentOf (text html : Option String) : String :=
  match text with
  | some t => if t ≠ "" then t else
      match html with
      | some h => if h ≠ "" then h else ""
      | none => ""
  | none =>
    match html with
    | some h => if h ≠ "" then h else ""
    | none => ""

/-- `extractMFACodeFromEmail(text, html)` of mfa-email-imap.js: the same
ordered pattern cascade applied to the first truthy body. -/
def extractMFACodeFromEmail (text html : Option String) : Option String :=
  Rx.sixDigitScan (contentOf text html)

/-- The flexible sender check of `processResults`. -/
def isHHAEmail (m : ImapMessage) : Bool :=
  Rx.containsSubCI m.sender "hhaexchange" || Rx.containsSubCI m.sender "noreply" ||
    Rx.containsSubCI m.subject "hhaexchange"

/-- The per-message callback of `processResults`: skip the message when a
start time is recorded and the message predates it, skip non-matching
senders, otherwise overwrite the found code when the body yields one. -/
def processOne (startTime : Option Nat) (acc : Option String) (m : ImapMessage) :
    Option String :=
  let fresh : Bool :=
    match startTime with
    | some t => decide (t ≤ m.date)
    | none => true
  if !fresh then acc
  else if !isHHAEmail m then acc
  else
    match extractMFACodeFromEmail m.text m.html with
    | some code => some code
    | none => acc

/-- `processResults` of mfa-email-imap.js over the fetched messages: the last
non-skipped message with an extractable code wins; none when no message
yields a code. -/
def processResults (startTime : Option Nat) (msgs : List ImapMessage) : Option String :=
  msgs.foldl (processOne startTime) none

end ImapMfa

namespace Downloads

/-- One file of the download directory: its name and its size in bytes as
reported by `fs.statSync`. -/
structure FileEntry where
  name : String
  size : Nat
  deriving DecidableEq

/-- A file path as produced by `path.join(downloadPath, filename)`; its
`name` component is what `path.basename` recovers. -/
structure FPath where
  dir : String
  name : String
  deriving DecidableEq

/-- The two fatal outcomes of the download step. -/
inductive DlErr where
  | downloadStartTimeout
  | verificationFailed
  deriving DecidableEq

/-- `download.saveAs(targetPath)`: writes the file, overwriting an existing
entry of the same name, otherwise appending to the directory listing. -/
def saveFile (dir : List FileEntry) (fn : String) (sz : Nat) : List FileEntry :=
  if dir.any (fun f => f.name = fn) then
    dir.map (fun f => if f.name = fn then { f with size := sz } else f)
  else dir ++ [⟨fn, sz⟩]

/-- `verifyDownload(filePath, pattern, minSizeBytes)` of downloads.js: the
basename must match the expected pattern and the file's size must reach the
minimum; a missing file or failing check yields false.  `test pat name`
stands for `pat.test(name)` of the compiled filename regexp. -/
def verifyDownload (test : String → String → Bool) (dir : List FileEntry)
    (p : FPath) (pattern : String) (minSizeBytes : Nat) : Bool :=
  if test pattern p.name then
    match dir.find? (fun f => f.name = p.name) with
    | some f => decide (minSizeBytes ≤ f.size)
    | none => false
  else false

/-- `checkExistingDownload(downloadPath, pattern)` of downloads.js: find the
first directory entry whose name matches the pattern; return its path when
it is non-empty, null otherwise. -/
def checkExistingDownload (test : String → String → Bool) (dir : List FileEntry)
    (pattern : String) (downloadPath : String) : Option FPath :=
  match dir.find? (fun f => test pattern f.name) with
  | some f => if 0 < f.size then some ⟨downloadPath, f.name⟩ else none
  | none => none

/-- The outcome of one armed `waitForEvent('download')` plus trigger click:
the browser-suggested filename and the byte size of the saved content. -/
structure Download where
  suggestedFilename : String
  size : Nat
  deriving DecidableEq

/-- `triggerAndWaitForDownload` of downloads.js for one attempt: none means
the download-start event never fired within the timeout; otherwise the file
is saved under its suggested name and verified against the pattern with the
hard-coded 100-byte minimum.  Returns the result together with the directory
as it stands afterwards (a saved file persists even when verification
fails). -/
def triggerAndWaitForDownload (test : String → String → Bool)
    (dl : Option Download) (dir : List FileEntry) (pattern : String)
    (downloadPath : String) : Except DlErr FPath × List FileEntry :=
  match dl with
  | none => (.error .downloadStartTimeout, dir)
  | some d =>
    let dir' := saveFile dir d.suggestedFilename d.size
    let target : FPath := ⟨downloadPath, d.suggestedFilename⟩
    if verifyDownload test dir' target pattern 100 then (.ok target, dir')
    else (.error .verificationFailed, dir')

end Downloads

namespace Reports

/-- One configured navigation step of a report definition. -/
structure MenuStep where
  type : String
  selector : String
  deriving DecidableEq

/-- The date-range field selectors of a report definition. -/
structure DateRangeSelectors where
  fromSel : String
  toSel : String
  deriving DecidableEq

/-- The download trigger of a report definition. -/
structure DownloadTrigger where
  trigger_selector : String
  trigger_type : String
  deriving DecidableEq

/-- A report definition as loaded from the YAML catalog; a `none` field is
one missing from the configuration. -/
structure ReportDef where
  start_url : Option String
  menu_steps : Option (List MenuStep)
  date_range_selectors : Option DateRangeSelectors
  run_button_selector : Option String
  download_trigger : Option DownloadTrigger
  expected_filename_regex : Option String
  deriving DecidableEq

/-- JavaScript truthiness of an optional string field (`!reportDef[field]`):
absent and empty strings are falsy. -/
def truthyStr : Option String → Bool
  | some s => decide (s ≠ "")
  | none => false

/-- `validateReportDefinition` of reports.js: all five required fields must
be truthy. -/
def validateReportDefinition (rd : ReportDef) : Bool :=
  truthyStr rd.start_url && rd.menu_steps.isSome && rd.date_range_selectors.isSome &&
    rd.download_trigger.isSome && truthyStr rd.expected_filename_regex

/-- The observable browser interactions of the report pipeline. -/
inductive Ev where
  | ensureLogin
  | nav
  | menu
  | dateFill
  | runClick
  | trigger
  deriving DecidableEq

/-- The fatal outcomes of `runReport` / `executeReportDownload`. -/
inductive RunErr where
  | reportNotFound
  | invalidDefinition
  | loginFailed
  | navFailed
  | menuFailed
  | dateFailed
  | runClickFailed
  | download (e : Downloads.DlErr)
  deriving DecidableEq

/-- The outcomes of the browser interactions a report run performs:
the session/network environment the source observes.  `download n` is the
outcome of the n-th armed download trigger attempt. -/
structure ExecEnv where
  ensureLoggedIn : Bool
  navOk : Bool
  menuSeq : Bool
  dateFill : Bool
  runClick : Bool
  download : Nat → Option Downloads.Download

/-- The `retryAction(..., maxRetries: 1, ...)` wrapper around the download
trigger: re-attempt on failure while retries remain, threading the download
directory through failed attempts; returns the final result, the directory,
and how many trigger attempts were performed. -/
def retryDownload (test : String → String → Bool)
    (download : Nat → Option Downloads.Download) (pattern downloadPath : String) :
    Nat → Nat → List Downloads.FileEntry →
      Except Downloads.DlErr Downloads.FPath × List Downloads.FileEntry × Nat
  | attempt, remaining, dir =>
    match Downloads.triggerAndWaitForDownload test (download attempt) dir pattern downloadPath with
    | (.ok p, dir') => (.ok p, dir', attempt + 1)
    | (.error e, dir') =>
      match remaining with
      | 0 => (.error e, dir', attempt + 1)
      | r + 1 => retryDownload test download pattern downloadPath (attempt + 1) r dir'

/-- `executeReportDownload` of reports.js: ensure the session is live,
navigate to the report start URL, walk the configured menu steps, fill the
date range, click the optional run button, then trigger the download under
`retryAction` with `maxRetries: 1`.  Returns the result, the download
directory, and the trace of browser interactions performed. -/
def executeReportDownload (test : String → String → Bool) (env : ExecEnv)
    (rd : ReportDef) (downloadPath : String) (dir : List Downloads.FileEntry) :
    Except RunErr Downloads.FPath × List Downloads.FileEntry × List Ev :=
  let evs1 := [Ev.ensureLogin]
  if !env.ensureLoggedIn then (.error .loginFailed, dir, evs1) else
  let evs2 := evs1 ++ [Ev.nav]
  if !env.navOk then (.error .navFailed, dir, evs2) else
  let stepMenu : Bool × List Ev :=
    match rd.menu_steps with
    | some steps => if 0 < steps.length then (env.menuSeq, [Ev.menu]) else (true, [])
    | none => (true, [])
  let evs3 := evs2 ++ stepMenu.2
  if !stepMenu.1 then (.error .menuFailed, dir, evs3) else
  let stepDate : Bool × List Ev :=
    match rd.date_range_selectors with
    | some _ => (env.dateFill, [Ev.dateFill])
    | none => (true, [])
  let evs4 := evs3 ++ stepDate.2
  if !stepDate.1 then (.error .dateFailed, dir, evs4) else
  let stepRun : Bool × List Ev :=
    if truthyStr rd.run_button_selector then (env.runClick, [Ev.runClick]) else (true, [])
  let evs5 := evs4 ++ stepRun.2
  if !stepRun.1 then (.error .runClickFailed, dir, evs5) else
  let pattern := rd.expected_filename_regex.getD "undefined"
  match retryDownload test env.download pattern downloadPath 0 1 dir with
  | (.ok p, dir', attempts) =>
    (.ok p, dir', evs5 ++ List.replicate attempts Ev.trigger)
  | (.error e, dir', attempts) =>
    (.error (.download e), dir', evs5 ++ List.replicate attempts Ev.trigger)

/-- `runReport` of reports.js: look the definition up, validate it, check
for an existing matching download unless forced, and only then execute the
browser pipeline. -/
def runReport (test : String → String → Bool) (env : ExecEnv)
    (config : List (String × ReportDef)) (reportName downloadPath : String)
    (dir : List Downloads.FileEntry) (force : Bool) :
    Except RunErr Downloads.FPath × List Downloads.FileEntry × List Ev :=
  match config.lookup reportName with
  | none => (.error .reportNotFound, dir, [])
  | some rd =>
    if !validateReportDefinition rd then (.error .invalidDefinition, dir, [])
    else if !force then
      match Downloads.checkExistingDownload test dir
          (rd.expected_filename_regex.getD "undefined") downloadPath with
      | some p => (.ok p, dir, [])
      | none => executeReportDownload test env rd downloadPath dir
    else executeReportDownload test env rd downloadPath dir

/-- The denotation of `new RegExp(pat).test(name)` for a pattern that is a
plain literal (no metacharacters): substring containment.  Used to
instantiate the abstract regexp test at concrete inputs. -/
def literalTest (pat name : String) : Bool := Rx.containsSub name pat

end Reports

namespace Login

/-- The URL markers `detectLoggedOut` of navigation.js scans for (already
lowercase in the source). -/
def loggedOutIndicators : List String :=
  ["/login", "/signin", "/auth", "session-expired", "logged-out"]

/-- Whether `needle` occurs in the lowercased `hay`. -/
def containsLower (hay needle : String) : Bool :=
  Rx.containsChars needle.toList (hay.toList.map Char.toLower)

/-- `detectLoggedOut(page)` of navigation.js: a logged-out URL marker in the
lowercased current URL, or a visible login form on the page. -/
def detectLoggedOut (currentUrl : String) (loginFormVisible : Bool) : Bool :=
  loggedOutIndicators.any (fun ind => containsLower currentUrl ind) || loginFormVisible

/-- The environment `handleMFA` observes: the outcome of automated code
retrieval, whether a code input and a submit control are found visible, and
whether the landing-page poll succeeds within its timeout. -/
structure MFAEnv where
  mfaCode : Option String
  codeInputVisible : Bool
  submitVisible : Bool
  landingDetected : Bool
  deriving DecidableEq

/-- The observable steps of the MFA handler. -/
inductive MFAEv where
  | retrieveCode
  | fillCode
  | submitCode
  | promptManual
  | manualBanner
  | waitLanding
  deriving DecidableEq

/-- The tail of `handleMFA`: the landing-page poll that every non-early-exit
path falls through to; its outcome decides the handler's result. -/
def afterLandingWait (env : MFAEnv) (evs : List MFAEv) : Bool × List MFAEv :=
  (env.landingDetected, evs ++ [MFAEv.waitLanding])

/-- `handleMFA(page, logger, headless)` of login.js.  With a retrieved code:
fill it when an input is found, submit when a submit control is found,
falling back to the manual prompt only when headful; a missing code input in
headless mode fails at once.  With no code: headless mode fails at once
(before any landing-page poll), headful mode shows the manual banner.  All
surviving paths end in the landing-page poll. -/
def handleMFA (env : MFAEnv) (headless : Bool) : Bool × List MFAEv :=
  match env.mfaCode with
  | some _ =>
    if env.codeInputVisible then
      if env.submitVisible then
        afterLandingWait env [MFAEv.retrieveCode, MFAEv.fillCode, MFAEv.submitCode]
      else if !headless then
        afterLandingWait env [MFAEv.retrieveCode, MFAEv.fillCode, MFAEv.promptManual]
      else
        afterLandingWait env [MFAEv.retrieveCode, MFAEv.fillCode]
    else if headless then (false, [MFAEv.retrieveCode])
    else afterLandingWait env [MFAEv.retrieveCode, MFAEv.promptManual]
  | none =>
    if headless then (false, [MFAEv.retrieveCode])
    else afterLandingWait env [MFAEv.retrieveCode, MFAEv.manualBanner]

/-- The environment `login` observes: credential entry outcome, whether the
MFA challenge is detected, the MFA environment, the outcome of the no-MFA
landing-page poll, and the final page state for the logged-out re-check. -/
structure LoginEnv where
  credentialsOk : Bool
  mfaRequired : Bool
  mfa : MFAEnv
  noMfaLandingDetected : Bool
  finalUrl : String
  finalLoginFormVisible : Bool

/-- The observable phases of the login flow. -/
inductive LoginEv where
  | creds
  | mfaFlow
  | waitLanding
  | finalCheck
  deriving DecidableEq

/-- `login(page, credentials, ...)` of login.js.  Credential failure is
fatal.  On the MFA path the handler's failure is fatal.  On the no-MFA path
the landing-page poll runs but its outcome is only logged
(`noMfaLandingDetected` does not steer control flow).  Every surviving path
ends in the `detectLoggedOut` re-check, which alone decides success. -/
def login (env : LoginEnv) (headless : Bool) : Bool × List LoginEv :=
  if !env.credentialsOk then (false, [LoginEv.creds])
  else if env.mfaRequired then
    if !(handleMFA env.mfa headless).1 then (false, [LoginEv.creds, LoginEv.mfaFlow])
    else if detectLoggedOut env.finalUrl env.finalLoginFormVisible then
      (false, [LoginEv.creds, LoginEv.mfaFlow, LoginEv.finalCheck])
    else (true, [LoginEv.creds, LoginEv.mfaFlow, LoginEv.finalCheck])
  else
    if detectLoggedOut env.finalUrl env.finalLoginFormVisible then
      (false, [LoginEv.creds, LoginEv.waitLanding, LoginEv.finalCheck])
    else (true, [LoginEv.creds, LoginEv.waitLanding, LoginEv.finalCheck])

end Login

namespace Caregiver

/-- A resolved field value: strings for text-like fields, booleans for
checkbox transforms. -/
inductive Value where
  | str (s : String)
  | bool (b : Bool)
  deriving DecidableEq

/-- JavaScript truthiness of a resolved value (`!value`). -/
def truthyValue : Value → Bool
  | .str s => decide (s ≠ "")
  | .bool b => b

/-- The fill-strategy dispatch tags of `fillCaregiverForm`. -/
inductive FieldType where
  | text
  | dropdown
  | checkbox
  | phonePart
  | date
  deriving DecidableEq

/-- One field-mapping entry of `CAREGIVER_CONFIG.hhaExchange.fields`.  A
function-valued `fixedValue` is embedded by the value it returns at call
time. -/
structure FieldConfig where
  name : String
  required : Bool
  source : Option String
  fixedValue : Option Value
  defaultValue : Option String
  transform : Option (String → Value)
  fieldType : FieldType

/-- `extractFieldValue(caregiver, fieldConfig)` of caregiver-config.js: a
defined `fixedValue` wins; with no source the default (or empty string) is
used; a falsy source value falls back to a truthy default, else the empty
string; otherwise the optional transform is applied to the source value. -/
def extractFieldValue (caregiver : List (String × String)) (fc : FieldConfig) : Value :=
  match fc.fixedValue with
  | some v => v
  | none =>
    match fc.source with
    | none => .str (match fc.defaultValue with | some d => d | none => "")
    | some src =>
      let sourceValue := (caregiver.lookup src).getD ""
      if sourceValue = "" then
        match fc.defaultValue with
        | some d => if d ≠ "" then Value.str d else Value.str ""
        | none => Value.str ""
      else
        match fc.transform with
        | some tr => tr sourceValue
        | none => Value.str sourceValue

/-- The page outcomes one field's fill interactions can observe. -/
structure FieldEnv where
  selectOk : Bool
  fillOk : Bool

/-- The per-field loop of `fillCaregiverForm` of caregiver-entry.js: an
unresolvable value is skipped — with only a logged warning when the field is
required; checkbox handling never fails the form; a dropdown falls back to a
plain fill; a failed fill aborts the form only for a required field. -/
def fillCaregiverForm (caregiver : List (String × String)) :
    List (FieldConfig × FieldEnv) → Bool
  | [] => true
  | (fc, fe) :: rest =>
    let value := extractFieldValue caregiver fc
    if !truthyValue value && !fc.required then fillCaregiverForm caregiver rest
    else if !truthyValue value && fc.required then fillCaregiverForm caregiver rest
    else
      match fc.fieldType with
      | .checkbox => fillCaregiverForm caregiver rest
      | .dropdown =>
        if fe.selectOk then fillCaregiverForm caregiver rest
        else if fe.fillOk then fillCaregiverForm caregiver rest
        else if fc.required then false
        else fillCaregiverForm caregiver rest
      | _ =>
        if fe.fillOk then fillCaregiverForm caregiver rest
        else if fc.required then false
        else fillCaregiverForm caregiver rest

/-- The observable phases of one caregiver entry. -/
inductive EntryEv where
  | navigate
  | fillForm
  | submit
  | verify
  deriving DecidableEq

/-- The page outcomes of the submission and verification phases. -/
structure EntryEnv where
  submitOk : Bool
  verifyOk : Bool

/-- `enterCaregiver` of caregiver-entry.js: navigate (failure only warns),
fill the form (failure aborts before submission), submit, verify. -/
def enterCaregiver (caregiver : List (String × String))
    (fields : List (FieldConfig × FieldEnv)) (env : EntryEnv) : Bool × List EntryEv :=
  if !fillCaregiverForm caregiver fields then
    (false, [EntryEv.navigate, EntryEv.fillForm])
  else if !env.submitOk then
    (false, [EntryEv.navigate, EntryEv.fillForm, EntryEv.submit])
  else if !env.verifyOk then
    (false, [EntryEv.navigate, EntryEv.fillForm, EntryEv.submit, EntryEv.verify])
  else (true, [EntryEv.navigate, EntryEv.fillForm, EntryEv.submit, EntryEv.verify])

end Caregiver

namespace Inst

/-- A complete report definition used at concrete inputs. -/
def goodDef : Reports.ReportDef :=
  { start_url := some "https://app.example.com/reports"
    menu_steps := some [⟨"click", "#menu-reports"⟩]
    date_range_selectors := some ⟨"#date-from", "#date-to"⟩
    run_button_selector := none
    download_trigger := some ⟨"#download-btn", "click"⟩
    expected_filename_regex := some "csv" }

/-- A report catalog holding the complete definition. -/
def cfgGood : List (String × Reports.ReportDef) := [("weekly_census", goodDef)]

/-- A report definition missing its start URL. -/
def missingUrlDef : Reports.ReportDef :=
  { start_url := none
    menu_steps := some [⟨"click", "#menu-reports"⟩]
    date_range_selectors := some ⟨"#date-from", "#date-to"⟩
    run_button_selector := none
    download_trigger := some ⟨"#download-btn", "click"⟩
    expected_filename_regex := some "csv" }

/-- A report catalog holding the incomplete definition. -/
def cfgMissing : List (String × Reports.ReportDef) := [("weekly_census", missingUrlDef)]

/-- An execution environment whose download trigger never starts a
download; every other interaction succeeds. -/
def noDlEnv : Reports.ExecEnv :=
  { ensureLoggedIn := true, navOk := true, menuSeq := true, dateFill := true
    runClick := true, download := fun _ => none }

/-- A successful download outcome: a matching name and 4096 bytes. -/
def okDl : Downloads.Download := ⟨"census_2024.csv", 4096⟩

/-- An execution environment where every interaction, the download
included, succeeds. -/
def okDlEnv : Reports.ExecEnv :=
  { ensureLoggedIn := true, navOk := true, menuSeq := true, dateFill := true
    runClick := true, download := fun _ => some okDl }

/-- A download whose saved file is only 10 bytes. -/
def smallDl : Downloads.Download := ⟨"weekly.csv", 10⟩

/-- A directory holding one non-matching file. -/
def otherFileDir : List Downloads.FileEntry := [⟨"notes.txt", 10⟩]

/-- A directory holding one pattern-matching file of 50 bytes. -/
def smallFileDir : List Downloads.FileEntry := [⟨"weekly_2024.csv", 50⟩]

/-- The recorded challenge-start instant (milliseconds since the epoch). -/
def challengeStartMs : Nat := 1700000000000

/-- A Graph message received one minute before the challenge start, from
the expected sender, carrying a code. -/
def staleGraphMsg : MfaEmail.GraphMessage :=
  { receivedDateTime := 1699999940000
    sender := "noreply@hhaexchange.com"
    subject := "HHAeXchange verification code"
    body := "Your verification code is: 482913" }

/-- A Graph message older than the five-minute recency window. -/
def veryOldGraphMsg : MfaEmail.GraphMessage :=
  { receivedDateTime := 1699999000000
    sender := "noreply@hhaexchange.com"
    subject := "HHAeXchange verification code"
    body := "Your verification code is: 111222" }

/-- An IMAP message received before the recorded start time. -/
def staleImapMsg : ImapMfa.ImapMessage :=
  { date := 500
    sender := "HHAeXchange <noreply@hhaexchange.com>"
    subject := "Authentication Code"
    text := some "Your verification code is: 333444"
    html := none }

/-- A required text field sourced from the caregiver's email column, with
no fixed or default value. -/
def reqEmailField : Caregiver.FieldConfig :=
  { name := "email", required := true, source := some "email", fixedValue := none
    defaultValue := none, transform := none, fieldType := .text }

/-- A required phone-part field sourced from the caregiver's phone column. -/
def reqPhoneField : Caregiver.FieldConfig :=
  { name := "primaryPhoneArea", required := true, source := some "phone"
    fixedValue := none, defaultValue := none, transform := none, fieldType := .text }

/-- A field environment where every page interaction succeeds. -/
def okFieldEnv : Caregiver.FieldEnv := { selectOk := true, fillOk := true }

/-- A field environment where the fill interaction fails. -/
def failFieldEnv : Caregiver.FieldEnv := { selectOk := true, fillOk := false }

/-- An entry environment where submission and verification succeed. -/
def okEntryEnv : Caregiver.EntryEnv := { submitOk := true, verifyOk := true }

/-- A caregiver record carrying a name but no email. -/
def cgJane : List (String × String) := [("applicantName", "Jane Doe")]

/-- A caregiver record carrying a phone number. -/
def cgPhone : List (String × String) := [("phone", "5169742038")]

/-- An MFA environment where automated retrieval yields no code. -/
def mfaNoCodeEnv : Login.MFAEnv :=
  { mfaCode := none, codeInputVisible := false, submitVisible := false
    landingDetected := true }

/-- An MFA environment with a retrieved code, visible controls, and a
landing-page poll that times out. -/
def mfaNoLandingEnv : Login.MFAEnv :=
  { mfaCode := some "482913", codeInputVisible := true, submitVisible := true
    landingDetected := false }

/-- A login environment: no MFA challenge, landing page never detected,
final page not logged out. -/
def loginEnvNoMfa : Login.LoginEnv :=
  { credentialsOk := true, mfaRequired := false, mfa := mfaNoCodeEnv
    noMfaLandingDetected := false
    finalUrl := "https://app.hhaexchange.com/Common/Home_ns.aspx"
    finalLoginFormVisible := false }

/-- A login environment: MFA challenge handled but the landing page never
detected. -/
def loginEnvMfa : Login.LoginEnv :=
  { credentialsOk := true, mfaRequired := true, mfa := mfaNoLandingEnv
    noMfaLandingDetected := false
    finalUrl := "https://app.hhaexchange.com/identity/account/login"
    finalLoginFormVisible := true }

end Inst

namespace Rx

theorem takeSix_startsSix (s : List Char) (r : List Char × List Char)
    (h : takeSixDigits s = some r) : startsSix s = true := by
  unfold takeSixDigits at h
  split at h
  case _ c1 c2 c3 c4 c5 c6 rest =>
    split at h
    case isTrue hd => simpa [startsSix] using hd
    case isFalse => simp at h
  case _ => simp at h

theorem startsSix_hasSixRun (s : List Char) (h : startsSix s = true) :
    hasSixRun s = true := by
  cases s with
  | nil => simp [startsSix] at h
  | cons c rest => simp [hasSixRun, h]

theorem hasSixRun_append (p t : List Char) (h : hasSixRun t = true) :
    hasSixRun (p ++ t) = true := by
  induction p with
  | nil => simpa using h
  | cons a p ih => simp [hasSixRun, ih]

theorem matchLitCI_suffix (lit : List Char) :
    ∀ (s r : List Char), matchLitCI lit s = some r → ∃ p, p ++ r = s := by
  induction lit with
  | nil =>
    intro s r h
    simp [matchLitCI] at h
    exact ⟨[], by simp [h]⟩
  | cons l ls ih =>
    intro s r h
    cases s with
    | nil => simp [matchLitCI] at h
    | cons c cs =>
      unfold matchLitCI at h
      split at h
      · obtain ⟨p, hp⟩ := ih cs r h
        exact ⟨c :: p, by simp [hp]⟩
      · simp at h

theorem afterColon_suffix (b : Bool) (s r : List Char)
    (h : afterColon b s = some r) : ∃ p, p ++ r = s := by
  unfold afterColon at h
  split at h
  · cases h
    exact ⟨[':'], rfl⟩
  · split at h
    · cases h
      exact ⟨[], rfl⟩
    · simp at h

theorem skipSpaces_suffix (s : List Char) : ∃ p, p ++ skipSpacesCh s = s := by
  induction s with
  | nil => exact ⟨[], rfl⟩
  | cons c cs ih =>
    by_cases hc : isSpaceCh c = true
    · obtain ⟨p, hp⟩ := ih
      exact ⟨c :: p, by simp [skipSpacesCh, List.dropWhile, hc]; simpa [skipSpacesCh] using hp⟩
    · exact ⟨[], by simp [skipSpacesCh, List.dropWhile, hc]⟩

theorem matchLitCodeAt_run (lit : List Char) (b : Bool) (s ds : List Char)
    (h : matchLitCodeAt lit b s = some ds) : hasSixRun s = true := by
  unfold matchLitCodeAt at h
  split at h
  · simp at h
  case _ rest hlit =>
    split at h
    · simp at h
    case _ rest2 hcolon =>
      split at h
      case _ pr htake =>
        have h1 : startsSix (skipSpacesCh rest2) = true := takeSix_startsSix _ _ htake
        have h2 : hasSixRun (skipSpacesCh rest2) = true := startsSix_hasSixRun _ h1
        obtain ⟨p3, hp3⟩ := skipSpaces_suffix rest2
        have h3 : hasSixRun rest2 = true := by
          rw [← hp3]; exact hasSixRun_append _ _ h2
        obtain ⟨p2, hp2⟩ := afterColon_suffix b rest rest2 hcolon
        have h4 : hasSixRun rest = true := by
          rw [← hp2]; exact hasSixRun_append _ _ h3
        obtain ⟨p1, hp1⟩ := matchLitCI_suffix lit s rest hlit
        rw [← hp1]
        exact hasSixRun_append _ _ h4
      · simp at h

theorem matchCodeLitAt_run (lit : List Char) (s ds : List Char)
    (h : matchCodeLitAt lit s = some ds) : hasSixRun s = true := by
  unfold matchCodeLitAt at h
  split at h
  · simp at h
  case _ pr htake =>
    exact startsSix_hasSixRun _ (takeSix_startsSix _ _ htake)

theorem matchBoundSixAt_run (prev : Option Char) (s ds : List Char)
    (h : matchBoundSixAt prev s = some ds) : hasSixRun s = true := by
  unfold matchBoundSixAt at h
  split at h
  · cases htake : takeSixDigits s with
    | none => rw [htake] at h; simp at h
    | some pr => exact startsSix_hasSixRun _ (takeSix_startsSix _ _ htake)
  · simp at h

theorem scanFor_run (m : List Char → Option (List Char))
    (hm : ∀ u r, m u = some r → hasSixRun u = true) :
    ∀ (s ds : List Char), scanFor m s = some ds → hasSixRun s = true := by
  intro s
  induction s with
  | nil =>
    intro ds h
    exact hm [] ds (by simpa [scanFor] using h)
  | cons c rest ih =>
    intro ds h
    unfold scanFor at h
    split at h
    case _ r hr =>
      exact hm _ _ hr
    case _ hr =>
      have := ih ds h
      simp [hasSixRun, this]

theorem scanBound_run :
    ∀ (s : List Char) (prev : Option Char) (ds : List Char),
      scanBound prev s = some ds → hasSixRun s = true := by
  intro s
  induction s with
  | nil =>
    intro prev ds h
    simp [scanBound] at h
  | cons c rest ih =>
    intro prev ds h
    unfold scanBound at h
    split at h
    case _ r hr =>
      exact matchBoundSixAt_run _ _ _ hr
    case _ hr =>
      have := ih (some c) ds h
      simp [hasSixRun, this]

theorem sixDigitScanChars_run (s : List Char) (c : String)
    (h : sixDigitScanChars s = some c) : hasSixRun s = true := by
  unfold sixDigitScanChars at h
  split at h
  case _ ds h1 =>
    exact scanFor_run _ (fun u r hr => matchLitCodeAt_run _ _ _ _ hr) _ _ h1
  split at h
  case _ ds h2 =>
    exact scanFor_run _ (fun u r hr => matchLitCodeAt_run _ _ _ _ hr) _ _ h2
  split at h
  case _ ds h3 =>
    exact scanFor_run _ (fun u r hr => matchLitCodeAt_run _ _ _ _ hr) _ _ h3
  split at h
  case _ ds h4 =>
    exact scanFor_run _ (fun u r hr => matchCodeLitAt_run _ _ _ hr) _ _ h4
  split at h
  case _ ds h5 =>
    exact scanFor_run _ (fun u r hr => matchLitCodeAt_run _ _ _ _ hr) _ _ h5
  split at h
  case _ ds h6 =>
    exact scanBound_run _ _ _ h6
  · simp at h

theorem sixDigitScan_run (body : String) (c : String)
    (h : sixDigitScan body = some c) : hasSixRun body.toList = true :=
  sixDigitScanChars_run body.toList c h

end Rx

theorem ImapMfa.processResults_filter_stale (t : Nat) :
    ∀ (msgs : List ImapMfa.ImapMessage) (acc : Option String),
      msgs.foldl (ImapMfa.processOne (some t)) acc =
        (msgs.filter (fun m => decide (t ≤ m.date))).foldl
          (ImapMfa.processOne (some t)) acc := by
  intro msgs
  induction msgs with
  | nil => intro acc; rfl
  | cons m ms ih =>
    intro acc
    by_cases hm : t ≤ m.date
    · simp only [List.filter_cons, hm, decide_True, if_true, List.foldl_cons]
      exact ih _
    · have hskip : ImapMfa.processOne (some t) acc m = acc := by
        simp [ImapMfa.processOne, hm]
      simp only [List.filter_cons, hm, decide_False, if_false, List.foldl_cons, hskip]
      exact ih _

/-- Claim C7: second-factor code extraction applies its ordered patterns,
most specific first: the body "Your verification code is: 482913" yields
"482913", and a body with no run of six consecutive digits yields null. -/
theorem claim_C7 :
    MfaEmail.extractMFACode "Your verification code is: 482913" = some "482913" ∧
    ∀ body : String, Rx.hasSixRun body.toList = false →
      MfaEmail.extractMFACode body = none := by
  constructor
  · rfl
  · intro body hrun
    cases h : MfaEmail.extractMFACode body with
    | none => rfl
    | some c =>
      have hr : Rx.hasSixRun body.toList = true :=
        Rx.sixDigitScan_run body c (by simpa [MfaEmail.extractMFACode] using h)
      rw [hrun] at hr
      exact absurd hr (by simp)

/-- Witness for C7 at a body with digits but no six-digit run. -/
theorem claim_C7_witness :
    Rx.hasSixRun "Please call 555-0199 about code 12345".toList = false ∧
    MfaEmail.extractMFACode "Please call 555-0199 about code 12345" = none :=
  ⟨by decide, claim_C7.2 "Please call 555-0199 about code 12345" (by decide)⟩

/-- Claim C8: when the MFA challenge is detected, the run is headless, and
automated retrieval yields no code, the MFA handler fails at once, without
entering the landing-page poll. -/
theorem claim_C8 (env : Login.MFAEnv) (h : env.mfaCode = none) :
    Login.handleMFA env true = (false, [Login.MFAEv.retrieveCode]) ∧
    Login.MFAEv.waitLanding ∉ (Login.handleMFA env true).2 := by
  have heq : Login.handleMFA env true = (false, [Login.MFAEv.retrieveCode]) := by
    simp [Login.handleMFA, h]
  exact ⟨heq, by rw [heq]; simp⟩

/-- Witness for C8 at a concrete environment with no retrievable code. -/
theorem claim_C8_witness :
    Inst.mfaNoCodeEnv.mfaCode = none ∧
    Login.handleMFA Inst.mfaNoCodeEnv true = (false, [Login.MFAEv.retrieveCode]) ∧
    Login.MFAEv.waitLanding ∉ (Login.handleMFA Inst.mfaNoCodeEnv true).2 :=
  ⟨rfl, claim_C8 Inst.mfaNoCodeEnv rfl⟩

/-- Claim C10: on the no-MFA path a landing-page detection failure is not
fatal — login succeeds whenever the final logged-out re-check is clean —
while on the MFA path a landing-page detection failure makes login fail. -/
theorem claim_C10 :
    (∀ (env : Login.LoginEnv) (headless : Bool),
        env.credentialsOk = true → env.mfaRequired = false →
        env.noMfaLandingDetected = false →
        Login.detectLoggedOut env.finalUrl env.finalLoginFormVisible = false →
        (Login.login env headless).1 = true) ∧
    (∀ (env : Login.LoginEnv) (headless : Bool) (c : String),
        env.credentialsOk = true → env.mfaRequired = true →
        env.mfa.mfaCode = some c → env.mfa.codeInputVisible = true →
        env.mfa.submitVisible = true → env.mfa.landingDetected = false →
        (Login.login env headless).1 = false) := by
  constructor
  · intro env headless h1 h2 _ h4
    simp [Login.login, h1, h2, h4]
  · intro env headless c h1 h2 h3 h4 h5 h6
    simp [Login.login, Login.handleMFA, Login.afterLandingWait, h1, h2, h3, h4, h5, h6]

/-- Witness for C10 at concrete login environments. -/
theorem claim_C10_witness :
    (Login.login Inst.loginEnvNoMfa true).1 = true ∧
    (Login.login Inst.loginEnvMfa true).1 = false :=
  ⟨claim_C10.1 Inst.loginEnvNoMfa true rfl rfl rfl (by decide),
   claim_C10.2 Inst.loginEnvMfa true "482913" rfl rfl rfl rfl rfl rfl⟩

/-- Counterexample to C5: a required field whose value resolution yields the
empty string is merely skipped — the flow still submits the form and reports
success, instead of aborting. -/
theorem claim_C5_counterexample :
    Inst.reqEmailField.required = true ∧
    Caregiver.truthyValue
        (Caregiver.extractFieldValue Inst.cgJane Inst.reqEmailField) = false ∧
    Caregiver.enterCaregiver Inst.cgJane [(Inst.reqEmailField, Inst.okFieldEnv)]
        Inst.okEntryEnv =
      (true, [Caregiver.EntryEv.navigate, Caregiver.EntryEv.fillForm,
              Caregiver.EntryEv.submit, Caregiver.EntryEv.verify]) :=
  ⟨rfl, rfl, rfl⟩

/-- Claim C5 as amended: a field-mapping entry (required or not) whose value
resolution yields no value is skipped with only a logged warning and the
entry flow continues to submission; the flow aborts before submission only
when filling a required field's control fails. -/
theorem claim_C5_amended :
    (∀ (cg : List (String × String)) (fc : Caregiver.FieldConfig)
        (fe : Caregiver.FieldEnv)
        (rest : List (Caregiver.FieldConfig × Caregiver.FieldEnv)),
        Caregiver.truthyValue (Caregiver.extractFieldValue cg fc) = false →
        Caregiver.fillCaregiverForm cg ((fc, fe) :: rest) =
          Caregiver.fillCaregiverForm cg rest) ∧
    (∀ (cg : List (String × String)) (fc : Caregiver.FieldConfig)
        (fe : Caregiver.FieldEnv)
        (rest : List (Caregiver.FieldConfig × Caregiver.FieldEnv))
        (env : Caregiver.EntryEnv),
        fc.required = true → fc.fieldType = Caregiver.FieldType.text →
        Caregiver.truthyValue (Caregiver.extractFieldValue cg fc) = true →
        fe.fillOk = false →
        (Caregiver.enterCaregiver cg ((fc, fe) :: rest) env).1 = false ∧
        Caregiver.EntryEv.submit ∉
          (Caregiver.enterCaregiver cg ((fc, fe) :: rest) env).2) := by
  constructor
  · intro cg fc fe rest hval
    cases hreq : fc.required <;>
      simp [Caregiver.fillCaregiverForm, hval, hreq]
  · intro cg fc fe rest env hreq htype hval hfill
    have hform : Caregiver.fillCaregiverForm cg ((fc, fe) :: rest) = false := by
      simp [Caregiver.fillCaregiverForm, hval, hreq, htype, hfill]
    exact ⟨by simp [Caregiver.enterCaregiver, hform],
      by simp [Caregiver.enterCaregiver, hform]⟩

/-- Witness for the amended C5: the skip of an unresolvable required field
and the abort on a failed required fill, at concrete inputs. -/
theorem claim_C5_amended_witness :
    (Caregiver.fillCaregiverForm Inst.cgJane [(Inst.reqEmailField, Inst.okFieldEnv)] =
      Caregiver.fillCaregiverForm Inst.cgJane []) ∧
    ((Caregiver.enterCaregiver Inst.cgPhone [(Inst.reqPhoneField, Inst.failFieldEnv)]
        Inst.okEntryEnv).1 = false ∧
      Caregiver.EntryEv.submit ∉
        (Caregiver.enterCaregiver Inst.cgPhone [(Inst.reqPhoneField, Inst.failFieldEnv)]
          Inst.okEntryEnv).2) :=
  ⟨claim_C5_amended.1 _ _ _ _ (by decide),
   claim_C5_amended.2 _ _ _ _ _ rfl rfl (by decide) rfl⟩

/-- Counterexample to C4: under the mail-API (Microsoft Graph) strategy a
message received one minute before the recorded challenge start — hence
stale — is still consulted and its code returned, because that strategy
filters only by a fixed five-minute window relative to the query time, not
by the challenge-start timestamp. -/
theorem claim_C4_counterexample :
    Inst.staleGraphMsg.receivedDateTime < Inst.challengeStartMs ∧
    MfaEmail.searchOutlookForMFACode Inst.challengeStartMs [Inst.staleGraphMsg] =
      some "482913" :=
  ⟨by decide, rfl⟩

/-- Claim C4 as amended: under the mailbox-protocol (IMAP) strategy every
message received before the recorded challenge-start timestamp is excluded
regardless of content; the mail-API (Graph) strategy instead excludes only
messages older than its fixed five-minute recency window at query time. -/
theorem claim_C4_amended :
    (∀ (t : Nat) (msgs : List ImapMfa.ImapMessage),
        ImapMfa.processResults (some t) msgs =
          ImapMfa.processResults (some t)
            (msgs.filter (fun m => decide (t ≤ m.date)))) ∧
    (∀ (now : Nat) (inbox : List MfaEmail.GraphMessage),
        (∀ m ∈ inbox, m.receivedDateTime < now - MfaEmail.maxAgeMs) →
        MfaEmail.searchOutlookForMFACode now inbox = none) := by
  constructor
  · intro t msgs
    exact ImapMfa.processResults_filter_stale t msgs none
  · intro now inbox hall
    have h0 : inbox.filter
        (fun m => MfaEmail.recentOk now m && MfaEmail.searchMatches m) = [] := by
      rw [List.filter_eq_nil_iff]
      intro m hm
      have hlt := hall m hm
      simp [MfaEmail.recentOk, Nat.not_le.mpr hlt]
    simp [MfaEmail.searchOutlookForMFACode, h0, MfaEmail.sortDesc, MfaEmail.searchGo]

/-- Witness for the amended C4: the stale-message filter under IMAP and the
recency-window exclusion under Graph, at concrete inputs. -/
theorem claim_C4_amended_witness :
    (ImapMfa.processResults (some 1000) [Inst.staleImapMsg] =
      ImapMfa.processResults (some 1000)
        ([Inst.staleImapMsg].filter (fun m => decide (1000 ≤ m.date)))) ∧
    MfaEmail.searchOutlookForMFACode 1700000000000 [Inst.veryOldGraphMsg] = none :=
  ⟨claim_C4_amended.1 1000 [Inst.staleImapMsg],
   claim_C4_amended.2 1700000000000 [Inst.veryOldGraphMsg] (by decide)⟩

theorem find?_append_of_forall_false {α : Type} (p : α → Bool) (l l' : List α)
    (h : ∀ x ∈ l, p x = false) :
    List.find? p (l ++ l') = List.find? p l' := by
  induction l with
  | nil => simp
  | cons a as ih =>
    have ha : p a = false := h a (by simp)
    rw [List.cons_append, List.find?_cons, ha]
    exact ih (fun x hx => h x (by simp [hx]))

theorem saveFile_find_size (dir : List Downloads.FileEntry) (fn : String) (sz : Nat)
    (f : Downloads.FileEntry)
    (h : (Downloads.saveFile dir fn sz).find? (fun fe => fe.name = fn) = some f) :
    f.size = sz := by
  have hmem := List.mem_of_find?_eq_some h
  have hp : f.name = fn := by simpa using List.find?_some h
  unfold Downloads.saveFile at hmem
  split at hmem
  · obtain ⟨orig, -, horig⟩ := List.mem_map.mp hmem
    by_cases ho : orig.name = fn
    · rw [if_pos ho] at horig
      rw [← horig]
    · rw [if_neg ho] at horig
      rw [← horig] at hp
      exact absurd hp ho
  next hany =>
    rcases List.mem_append.mp hmem with hin | hin
    · have : dir.any (fun fe => fe.name = fn) = true :=
        List.any_eq_true.mpr ⟨f, hin, by simp [hp]⟩
      simp [this] at hany
    · simp at hin
      rw [hin]

/-- Claim C2: a report definition missing any required field (start URL,
navigation steps, date-range selectors, download trigger, filename pattern)
makes the run throw before any browser interaction: the run rejects with an
invalid-definition error and an empty interaction trace. -/
theorem claim_C2 (test : String → String → Bool) (env : Reports.ExecEnv)
    (config : List (String × Reports.ReportDef)) (name dpath : String)
    (dir : List Downloads.FileEntry) (force : Bool) (rd : Reports.ReportDef)
    (hlook : config.lookup name = some rd)
    (hmiss : rd.start_url = none ∨ rd.menu_steps = none ∨
      rd.date_range_selectors = none ∨ rd.download_trigger = none ∨
      rd.expected_filename_regex = none) :
    Reports.runReport test env config name dpath dir force =
      (.error Reports.RunErr.invalidDefinition, dir, []) := by
  have hval : Reports.validateReportDefinition rd = false := by
    rcases hmiss with h | h | h | h | h <;>
      simp [Reports.validateReportDefinition, Reports.truthyStr, h]
  simp [Reports.runReport, hlook, hval]

/-- Witness for C2: a concrete definition missing its start URL is rejected
with no interaction performed. -/
theorem claim_C2_witness :
    Inst.cfgMissing.lookup "weekly_census" = some Inst.missingUrlDef ∧
    Inst.missingUrlDef.start_url = none ∧
    Reports.runReport Reports.literalTest Inst.okDlEnv Inst.cfgMissing "weekly_census"
        "downloads/run1" [] false =
      (.error Reports.RunErr.invalidDefinition, [], []) :=
  ⟨rfl, rfl,
    claim_C2 Reports.literalTest Inst.okDlEnv Inst.cfgMissing "weekly_census"
      "downloads/run1" [] false Inst.missingUrlDef rfl (Or.inl rfl)⟩

/-- Claim C6: a freshly triggered download is returned as the result only
when the saved file's name matches the expected pattern and its size reaches
the 100-byte default minimum; a download violating either check ends the
step in a verification error instead. -/
theorem claim_C6 (test : String → String → Bool) (dl : Option Downloads.Download)
    (dir : List Downloads.FileEntry) (pattern downloadPath : String) :
    (∀ (p : Downloads.FPath) (dir' : List Downloads.FileEntry),
        Downloads.triggerAndWaitForDownload test dl dir pattern downloadPath =
          (.ok p, dir') →
        test pattern p.name = true ∧
        ∃ f, dir'.find? (fun fe => fe.name = p.name) = some f ∧ 100 ≤ f.size) ∧
    (∀ d : Downloads.Download, dl = some d →
        (test pattern d.suggestedFilename = false ∨ d.size < 100) →
        ∃ dir', Downloads.triggerAndWaitForDownload test dl dir pattern downloadPath =
          (.error Downloads.DlErr.verificationFailed, dir')) := by
  constructor
  · intro p dir' h
    unfold Downloads.triggerAndWaitForDownload at h
    split at h
    · rw [Prod.mk.injEq] at h
      exact absurd h.1 (by simp)
    · dsimp only at h
      split at h
      next hv =>
        rw [Prod.mk.injEq] at h
        obtain ⟨h1, h2⟩ := h
        injection h1 with h1
        subst h1
        subst h2
        unfold Downloads.verifyDownload at hv
        split at hv
        next ht =>
          split at hv
          next f hf =>
            exact ⟨ht, f, hf, by simpa using hv⟩
          next => simp at hv
        next => simp at hv
      next =>
        rw [Prod.mk.injEq] at h
        exact absurd h.1 (by simp)
  · intro d hdl hbad
    subst hdl
    have hsz : ∀ f, (Downloads.saveFile dir d.suggestedFilename d.size).find?
        (fun fe => fe.name = d.suggestedFilename) = some f → f.size = d.size :=
      fun f hf => saveFile_find_size dir d.suggestedFilename d.size f hf
    have hv : Downloads.verifyDownload test
        (Downloads.saveFile dir d.suggestedFilename d.size)
        ⟨downloadPath, d.suggestedFilename⟩ pattern 100 = false := by
      rcases hbad with hb | hb
      · simp [Downloads.verifyDownload, hb]
      · unfold Downloads.verifyDownload
        split
        · split
          case _ f hf =>
            have := hsz f hf
            simp [this]
            omega
          case _ => rfl
        · rfl
    refine ⟨Downloads.saveFile dir d.suggestedFilename d.size, ?_⟩
    simp [Downloads.triggerAndWaitForDownload, hv]

/-- Witness for C6: a successful 4096-byte matching download is returned,
and a 10-byte download is rejected with a verification error. -/
theorem claim_C6_witness :
    (Reports.literalTest "csv" (Downloads.FPath.mk "downloads/run1" "census_2024.csv").name =
        true ∧
      ∃ f, ([] ++ [Downloads.FileEntry.mk "census_2024.csv" 4096]).find?
          (fun fe : Downloads.FileEntry =>
            fe.name = (Downloads.FPath.mk "downloads/run1" "census_2024.csv").name) =
            some f ∧ 100 ≤ f.size) ∧
    ∃ dir', Downloads.triggerAndWaitForDownload Reports.literalTest (some Inst.smallDl) []
        "csv" "downloads/run1" = (.error Downloads.DlErr.verificationFailed, dir') :=
  ⟨(claim_C6 Reports.literalTest (some Inst.okDl) [] "csv" "downloads/run1").1
      ⟨"downloads/run1", "census_2024.csv"⟩
      ([] ++ [Downloads.FileEntry.mk "census_2024.csv" 4096]) rfl,
    (claim_C6 Reports.literalTest (some Inst.smallDl) [] "csv" "downloads/run1").2
      Inst.smallDl rfl (Or.inr (by decide))⟩

/-- Claim C9: on the idempotency path an existing file counts as a prior
download when its name matches the pattern and it is non-empty, with no
minimum-size check: with the force flag unset and the first matching file of
the directory between 1 and 99 bytes, the run returns that file's path as
success with no pipeline step, even though the same file fails the 100-byte
validation applied to fresh downloads. -/
theorem claim_C9 (test : String → String → Bool) (env : Reports.ExecEnv)
    (config : List (String × Reports.ReportDef)) (name dpath rx : String)
    (rd : Reports.ReportDef) (dir : List Downloads.FileEntry)
    (f : Downloads.FileEntry)
    (hlook : config.lookup name = some rd)
    (hval : Reports.validateReportDefinition rd = true)
    (hrx : rd.expected_filename_regex = some rx)
    (hfind : dir.find? (fun fe => test rx fe.name) = some f)
    (hfindName : dir.find? (fun fe => fe.name = f.name) = some f)
    (h1 : 1 ≤ f.size) (h99 : f.size ≤ 99) :
    Reports.runReport test env config name dpath dir false =
      (.ok ⟨dpath, f.name⟩, dir, []) ∧
    Downloads.verifyDownload test dir ⟨dpath, f.name⟩ rx 100 = false := by
  have hget : rd.expected_filename_regex.getD "undefined" = rx := by simp [hrx]
  have hpos : 0 < f.size := h1
  constructor
  · simp [Reports.runReport, hlook, hval, hget, Downloads.checkExistingDownload,
      hfind, hpos]
  · have ht : test rx f.name = true := by
      have := List.find?_some hfind
      simpa using this
    have hno : ¬ (100 ≤ f.size) := by omega
    simp [Downloads.verifyDownload, ht, hfindName, hno]

/-- Witness for C9: a 50-byte matching file is returned as the run's result
with no pipeline step, though it fails the fresh-download validation. -/
theorem claim_C9_witness :
    Reports.runReport Reports.literalTest Inst.okDlEnv Inst.cfgGood "weekly_census"
        "downloads/run1" Inst.smallFileDir false =
      (.ok ⟨"downloads/run1", "weekly_2024.csv"⟩, Inst.smallFileDir, []) ∧
    Downloads.verifyDownload Reports.literalTest Inst.smallFileDir
        ⟨"downloads/run1", "weekly_2024.csv"⟩ "csv" 100 = false :=
  claim_C9 Reports.literalTest Inst.okDlEnv Inst.cfgGood "weekly_census" "downloads/run1"
    "csv" Inst.goodDef Inst.smallFileDir ⟨"weekly_2024.csv", 50⟩ rfl (by decide) rfl
    (by decide) (by decide) (by decide) (by decide)

/-- Claim C3: with identical parameters, no force flag, and a download
directory initially holding no file matching the report's pattern, the
first invocation runs the browser pipeline (session check through download
trigger) and stores the validated download; the second invocation returns
that same file's path with an empty interaction trace — no pipeline step is
performed. -/
theorem claim_C3 (test : String → String → Bool) (env : Reports.ExecEnv)
    (config : List (String × Reports.ReportDef)) (name dpath rx : String)
    (rd : Reports.ReportDef) (dir : List Downloads.FileEntry)
    (d : Downloads.Download)
    (hlook : config.lookup name = some rd)
    (hval : Reports.validateReportDefinition rd = true)
    (hrx : rd.expected_filename_regex = some rx)
    (hdirNoMatch : ∀ f ∈ dir, test rx f.name = false)
    (h1 : env.ensureLoggedIn = true) (h2 : env.navOk = true)
    (h3 : env.menuSeq = true) (h4 : env.dateFill = true) (h5 : env.runClick = true)
    (hdl : env.download 0 = some d)
    (hdName : test rx d.suggestedFilename = true)
    (hdSize : 100 ≤ d.size) :
    ∃ evs : List Reports.Ev,
      Reports.runReport test env config name dpath dir false =
        (.ok ⟨dpath, d.suggestedFilename⟩,
          dir ++ [⟨d.suggestedFilename, d.size⟩], Reports.Ev.ensureLogin :: evs) ∧
      Reports.Ev.trigger ∈ Reports.Ev.ensureLogin :: evs ∧
      Reports.runReport test env config name dpath
          (dir ++ [⟨d.suggestedFilename, d.size⟩]) false =
        (.ok ⟨dpath, d.suggestedFilename⟩,
          dir ++ [⟨d.suggestedFilename, d.size⟩], []) := by
  have hget : rd.expected_filename_regex.getD "undefined" = rx := by simp [hrx]
  have hne : ∀ f ∈ dir, ¬ f.name = d.suggestedFilename := by
    intro f hf heq
    have hcontra := hdirNoMatch f hf
    simp [heq, hdName] at hcontra
  have hsave : Downloads.saveFile dir d.suggestedFilename d.size =
      dir ++ [⟨d.suggestedFilename, d.size⟩] := by
    unfold Downloads.saveFile
    have hany : dir.any (fun f => f.name = d.suggestedFilename) = false := by
      rw [List.any_eq_false]
      intro f hf
      simpa using hne f hf
    rw [hany]
    simp
  have hfind1 : dir.find? (fun fe => test rx fe.name) = none := by
    apply List.find?_eq_none.mpr
    intro x hx
    simp [hdirNoMatch x hx]
  have hcheck1 : Downloads.checkExistingDownload test dir rx dpath = none := by
    simp [Downloads.checkExistingDownload, hfind1]
  have hfindName : (dir ++ [(⟨d.suggestedFilename, d.size⟩ : Downloads.FileEntry)]).find?
      (fun fe => fe.name = d.suggestedFilename) =
        some ⟨d.suggestedFilename, d.size⟩ := by
    rw [find?_append_of_forall_false]
    · simp [List.find?_cons]
    · intro x hx
      simpa using hne x hx
  have hver : Downloads.verifyDownload test (dir ++ [⟨d.suggestedFilename, d.size⟩])
      ⟨dpath, d.suggestedFilename⟩ rx 100 = true := by
    simp [Downloads.verifyDownload, hdName, hfindName, hdSize]
  have htrig : Downloads.triggerAndWaitForDownload test (env.download 0) dir rx dpath =
      (.ok ⟨dpath, d.suggestedFilename⟩, dir ++ [⟨d.suggestedFilename, d.size⟩]) := by
    rw [hdl]
    simp [Downloads.triggerAndWaitForDownload, hsave, hver]
  have hretry : Reports.retryDownload test env.download rx dpath 0 1 dir =
      (.ok ⟨dpath, d.suggestedFilename⟩, dir ++ [⟨d.suggestedFilename, d.size⟩], 1) := by
    unfold Reports.retryDownload
    rw [htrig]
  have hval' := hval
  simp only [Reports.validateReportDefinition, Bool.and_eq_true] at hval'
  obtain ⟨⟨⟨⟨hurl, hms⟩, hdrs⟩, hdt⟩, hre⟩ := hval'
  obtain ⟨steps, hsteps⟩ := Option.isSome_iff_exists.mp hms
  obtain ⟨drs, hdrs'⟩ := Option.isSome_iff_exists.mp hdrs
  have hexec : ∃ evs, Reports.executeReportDownload test env rd dpath dir =
      (.ok ⟨dpath, d.suggestedFilename⟩,
        dir ++ [⟨d.suggestedFilename, d.size⟩], Reports.Ev.ensureLogin :: evs) ∧
      Reports.Ev.trigger ∈ Reports.Ev.ensureLogin :: evs := by
    by_cases hlen : 0 < steps.length
    · by_cases hbtn : Reports.truthyStr rd.run_button_selector = true
      · refine ⟨[.nav, .menu, .dateFill, .runClick, .trigger], ?_, by simp⟩
        simp [Reports.executeReportDownload, h1, h2, h3, h4, h5, hsteps, hdrs', hlen,
          hbtn, hget, hretry]
      · refine ⟨[.nav, .menu, .dateFill, .trigger], ?_, by simp⟩
        simp [Reports.executeReportDownload, h1, h2, h3, h4, h5, hsteps, hdrs', hlen,
          hbtn, hget, hretry]
    · by_cases hbtn : Reports.truthyStr rd.run_button_selector = true
      · refine ⟨[.nav, .dateFill, .runClick, .trigger], ?_, by simp⟩
        simp [Reports.executeReportDownload, h1, h2, h3, h4, h5, hsteps, hdrs', hlen,
          hbtn, hget, hretry]
      · refine ⟨[.nav, .dateFill, .trigger], ?_, by simp⟩
        simp [Reports.executeReportDownload, h1, h2, h3, h4, h5, hsteps, hdrs', hlen,
          hbtn, hget, hretry]
  obtain ⟨evs, hex, htrigmem⟩ := hexec
  refine ⟨evs, ?_, htrigmem, ?_⟩
  · simp [Reports.runReport, hlook, hval, hget, hcheck1, hex]
  · have hfind2 : (dir ++ [(⟨d.suggestedFilename, d.size⟩ : Downloads.FileEntry)]).find?
        (fun fe => test rx fe.name) = some ⟨d.suggestedFilename, d.size⟩ := by
      rw [find?_append_of_forall_false _ _ _ hdirNoMatch]
      simp [List.find?_cons, hdName]
    have hpos : 0 < d.size := by omega
    have hcheck2 : Downloads.checkExistingDownload test
        (dir ++ [⟨d.suggestedFilename, d.size⟩]) rx dpath =
          some ⟨dpath, d.suggestedFilename⟩ := by
      simp [Downloads.checkExistingDownload, hfind2, hpos]
    simp [Reports.runReport, hlook, hval, hget, hcheck2]

/-- Witness for C3: a concrete first run downloads census_2024.csv, and the
repeat run returns the same path with no pipeline step. -/
theorem claim_C3_witness :
    ∃ evs : List Reports.Ev,
      Reports.runReport Reports.literalTest Inst.okDlEnv Inst.cfgGood "weekly_census"
          "downloads/run1" Inst.otherFileDir false =
        (.ok ⟨"downloads/run1", "census_2024.csv"⟩,
          Inst.otherFileDir ++ [⟨"census_2024.csv", 4096⟩],
          Reports.Ev.ensureLogin :: evs) ∧
      Reports.Ev.trigger ∈ Reports.Ev.ensureLogin :: evs ∧
      Reports.runReport Reports.literalTest Inst.okDlEnv Inst.cfgGood "weekly_census"
          "downloads/run1" (Inst.otherFileDir ++ [⟨"census_2024.csv", 4096⟩]) false =
        (.ok ⟨"downloads/run1", "census_2024.csv"⟩,
          Inst.otherFileDir ++ [⟨"census_2024.csv", 4096⟩], []) :=
  claim_C3 Reports.literalTest Inst.okDlEnv Inst.cfgGood "weekly_census" "downloads/run1"
    "csv" Inst.goodDef Inst.otherFileDir Inst.okDl rfl (by decide) rfl (by decide)
    rfl rfl rfl rfl rfl rfl (by decide) (by decide)

theorem retryDownload_attempts_le (test : String → String → Bool)
    (download : Nat → Option Downloads.Download) (pattern downloadPath : String) :
    ∀ (r a : Nat) (dir : List Downloads.FileEntry),
      (Reports.retryDownload test download pattern downloadPath a r dir).2.2 ≤
        a + r + 1 := by
  intro r
  induction r with
  | zero =>
    intro a dir
    unfold Reports.retryDownload
    split
    · simp
    · simp
  | succ r ih =>
    intro a dir
    unfold Reports.retryDownload
    split
    · simp
    next e dir' heq =>
      calc (Reports.retryDownload test download pattern downloadPath (a + 1) r dir').2.2
          ≤ (a + 1) + r + 1 := ih (a + 1) dir'
        _ ≤ a + (r + 1) + 1 := by omega

/-- Counterexample to C1: with a trigger whose download never starts, the
pipeline performs the trigger interaction twice — `retryAction` with
`maxRetries: 1` re-runs the failed download trigger once before surfacing
the error. -/
theorem claim_C1_counterexample :
    Inst.noDlEnv.download 0 = none ∧
    Reports.executeReportDownload Reports.literalTest Inst.noDlEnv Inst.goodDef
        "downloads/run1" [] =
      (.error (Reports.RunErr.download Downloads.DlErr.downloadStartTimeout), [],
        [Reports.Ev.ensureLogin, Reports.Ev.nav, Reports.Ev.menu, Reports.Ev.dateFill,
         Reports.Ev.trigger, Reports.Ev.trigger]) :=
  ⟨rfl, rfl⟩

/-- Claim C1 as amended: within one report run the download trigger is
performed at most twice — the one configured retry after a failure, after
which the failure is surfaced with no further trigger attempt. -/
theorem claim_C1_amended (test : String → String → Bool) (env : Reports.ExecEnv)
    (rd : Reports.ReportDef) (downloadPath : String)
    (dir : List Downloads.FileEntry) :
    ((Reports.executeReportDownload test env rd downloadPath dir).2.2.countP
      (fun e => e = Reports.Ev.trigger)) ≤ 2 := by
  have hrep : ∀ (n : Nat),
      (List.replicate n Reports.Ev.trigger).countP
        (fun e => e = Reports.Ev.trigger) ≤ n := by
    intro n
    calc (List.replicate n Reports.Ev.trigger).countP (fun e => e = Reports.Ev.trigger)
        ≤ (List.replicate n Reports.Ev.trigger).length := List.countP_le_length _
      _ = n := List.length_replicate n _
  have hbound : (Reports.retryDownload test env.download
      (rd.expected_filename_regex.getD "undefined") downloadPath 0 1 dir).2.2 ≤ 2 := by
    have hb := retryDownload_attempts_le test env.download
      (rd.expected_filename_regex.getD "undefined") downloadPath 1 0 dir
    simpa using hb
  rcases hR : Reports.retryDownload test env.download
      (rd.expected_filename_regex.getD "undefined") downloadPath 0 1 dir with
    ⟨res, dirR, attempts⟩
  rw [hR] at hbound
  dsimp only at hbound
  unfold Reports.executeReportDownload
  dsimp only
  rw [hR]
  cases res with
  | ok p =>
    dsimp only
    repeat' split
    all_goals
      simp [List.countP_append, List.countP_cons, List.countP_nil, hbound] <;>
        exact le_trans (hrep attempts) hbound
  | error e =>
    dsimp only
    repeat' split
    all_goals
      simp [List.countP_append, List.countP_cons, List.countP_nil, hbound] <;>
        exact le_trans (hrep attempts) hbound
